import Mathlib

/-!
Verification of the submission pipeline and worker scheduler of the
SaaS-Directory-Agent repository, as a shallow embedding in Lean.

Strings manipulated by the Python code are modelled as `List Char`.
The helpers in this section mirror the Python string operations used by
the code under verification:

* `containsSub sep s` mirrors `sep in s` (substring containment);
* `splitOnSub sep s` mirrors `s.split(sep)` for a non-empty separator;
* `pyStrip s` mirrors `s.strip()`;
* `pyLower s` mirrors `s.lower()` (ASCII range, which is all the code uses).
-/

def pyIsSpace (c : Char) : Bool :=
  c = ' ' || c = '\t' || c = '\n' || c = '\r' || c = '\x0b' || c = '\x0c'

def pyStrip (s : List Char) : List Char :=
  ((s.dropWhile pyIsSpace).reverse.dropWhile pyIsSpace).reverse

def pyLower (s : List Char) : List Char :=
  s.map Char.toLower

def containsSub (sep : List Char) : List Char → Bool
  | [] => sep.isPrefixOf []
  | c :: cs => sep.isPrefixOf (c :: cs) || containsSub sep cs

/-- Auxiliary worker for `splitOnSub`: `acc` holds the characters of the
current chunk in reverse order, and `skip` counts separator characters
still to be consumed after a match. -/
def splitAux (sep : List Char) (acc : List Char) (skip : Nat) :
    List Char → List (List Char)
  | [] => [acc.reverse]
  | c :: cs =>
    match skip with
    | k + 1 => splitAux sep acc k cs
    | 0 =>
      if sep.isPrefixOf (c :: cs) then
        acc.reverse :: splitAux sep [] (sep.length - 1) cs
      else
        splitAux sep (c :: acc) 0 cs

/-- Model of Python `s.split(sep)` for a non-empty separator `sep`
(the code only ever splits on the literal separators "```json" and "```"). -/
def splitOnSub (sep s : List Char) : List (List Char) :=
  splitAux sep [] 0 s

/-! ### Locating occurrences of the fence marker

The provider response parser splits on the markers "```json" and "```".
These lemmas locate every occurrence of the three-backtick marker inside a
fenced response `"```json\n" ++ j ++ "\n```"` when the body `j` itself
contains no three-backtick run. -/

def btMark : List Char := ['`', '`', '`']

def nlMark : List Char := ['\n']

def jsonFenceMark : List Char := btMark ++ ['j', 's', 'o', 'n']

/-- The suffix of a fenced provider response after the leading "```json". -/
def fenceTail (j : List Char) : List Char := nlMark ++ j ++ nlMark ++ btMark

/-- A provider response consisting of the body `j` wrapped in a fenced code
block: `"```json\n" ++ j ++ "\n```"`. -/
def fencedResp (j : List Char) : List Char := jsonFenceMark ++ fenceTail j

/-!
### JSON values and a model of `json.loads`

`Json` models Python JSON values; `json_loads` models `json.loads` on a
whole document (strict mode): it skips JSON whitespace, requires the whole
input to be consumed, enforces the JSON grammar for numbers (no leading
zeros, mandatory digits around the decimal point) and strings (escape
sequences, no raw control characters), and gives objects Python dict
semantics (insertion order, a duplicated key overwrites in place).
Numbers are represented by their rational value, collapsing the Python
int/float distinction (Python compares `1 == 1.0` anyway); the `NaN` and
`Infinity` extensions of Python and `\u` surrogate pairs are not modelled
(the code under verification never relies on them).
-/

inductive Json where
  | null : Json
  | bool (b : Bool) : Json
  | num (q : Rat) : Json
  | str (s : List Char) : Json
  | arr (xs : List Json) : Json
  | obj (kvs : List (List Char × Json)) : Json

/-- Python `dict` insertion: an existing key is overwritten in place, a new
key is appended, preserving insertion order. -/
def pyDictInsert {α β : Type} [BEq α] : List (α × β) → α → β → List (α × β)
  | [], k, v => [(k, v)]
  | (k', v') :: rest, k, v =>
    if k' == k then (k, v) :: rest else (k', v') :: pyDictInsert rest k v

/-- Python `dict.get` (returning `none` for a missing key). -/
def pyDictGet {α β : Type} [BEq α] (m : List (α × β)) (k : α) : Option β :=
  (m.find? (fun kv => kv.1 == k)).map (·.2)

def skipWs (s : List Char) : List Char :=
  s.dropWhile (fun c => c = ' ' || c = '\t' || c = '\n' || c = '\r')

def hexVal (c : Char) : Option Nat :=
  if '0' ≤ c ∧ c ≤ '9' then some (c.toNat - 48)
  else if 'a' ≤ c ∧ c ≤ 'f' then some (c.toNat - 87)
  else if 'A' ≤ c ∧ c ≤ 'F' then some (c.toNat - 55)
  else none

def escChar (e : Char) : Option Char :=
  if e = '"' then some '"'
  else if e = '\\' then some '\\'
  else if e = '/' then some '/'
  else if e = 'b' then some '\x08'
  else if e = 'f' then some '\x0c'
  else if e = 'n' then some '\n'
  else if e = 'r' then some '\r'
  else if e = 't' then some '\t'
  else none

/-- Parse the body of a JSON string after the opening quote, returning the
decoded characters and the input remaining after the closing quote. -/
def parseStrAux : List Char → Option (List Char × List Char)
  | [] => none
  | c :: rest =>
    if c = '"' then some ([], rest)
    else if c = '\\' then
      match rest with
      | [] => none
      | e :: rest2 =>
        if e = 'u' then
          match rest2 with
          | h1 :: h2 :: h3 :: h4 :: rest3 =>
            match hexVal h1, hexVal h2, hexVal h3, hexVal h4 with
            | some a, some b, some c2, some d =>
              (parseStrAux rest3).map
                (fun p => (Char.ofNat (((a * 16 + b) * 16 + c2) * 16 + d) :: p.1, p.2))
            | _, _, _, _ => none
          | _ => none
        else
          match escChar e with
          | some ec => (parseStrAux rest2).map (fun p => (ec :: p.1, p.2))
          | none => none
    else if c.toNat < 32 then none
    else (parseStrAux rest).map (fun p => (c :: p.1, p.2))

def digitsToNat (ds : List Char) : Nat :=
  ds.foldl (fun n c => n * 10 + (c.toNat - 48)) 0

/-- The rational value of a JSON number with sign `sgn`, integer digits
value `ip`, fraction digits `fs` and decimal exponent `ex`. -/
def mkJsonNum (sgn : Int) (ip : Nat) (fs : List Char) (ex : Int) : Rat :=
  let m : Int := sgn * ((ip * 10 ^ fs.length + digitsToNat fs : Nat) : Int)
  let e : Int := ex - fs.length
  mkRat (m * 10 ^ e.toNat) (10 ^ (-e).toNat)

def parseExpPart (sgn : Int) (ip : Nat) (fs : List Char) :
    List Char → Option (Rat × List Char)
  | s =>
    let (esgn, s1) : Int × List Char :=
      match s with
      | '+' :: r => (1, r)
      | '-' :: r => (-1, r)
      | r => (1, r)
    let eds := s1.takeWhile Char.isDigit
    let rest := s1.dropWhile Char.isDigit
    if eds = [] then none
    else some (mkJsonNum sgn ip fs (esgn * (digitsToNat eds : Int)), rest)

/-- Parse a JSON number (grammar `-?(0|[1-9][0-9]*)(\.[0-9]+)?([eE][-+]?[0-9]+)?`). -/
def parseNumber (s : List Char) : Option (Rat × List Char) :=
  let (sgn, s1) : Int × List Char :=
    match s with
    | '-' :: r => (-1, r)
    | r => (1, r)
  let ds := s1.takeWhile Char.isDigit
  let r1 := s1.dropWhile Char.isDigit
  if ds = [] then none
  else if 2 ≤ ds.length ∧ ds.headD 'x' = '0' then none
  else
    let ip := digitsToNat ds
    match r1 with
    | '.' :: r2 =>
      let fs := r2.takeWhile Char.isDigit
      let r3 := r2.dropWhile Char.isDigit
      if fs = [] then none
      else
        match r3 with
        | 'e' :: r4 => parseExpPart sgn ip fs r4
        | 'E' :: r4 => parseExpPart sgn ip fs r4
        | _ => some (mkJsonNum sgn ip fs 0, r3)
    | 'e' :: r2 => parseExpPart sgn ip [] r2
    | 'E' :: r2 => parseExpPart sgn ip [] r2
    | _ => some (mkJsonNum sgn ip [] 0, r1)

mutual

def parseVal : Nat → List Char → Option (Json × List Char)
  | 0, _ => none
  | fuel + 1, s0 =>
    match skipWs s0 with
    | [] => none
    | c :: r =>
      if c = 'n' then
        if ['u', 'l', 'l'].isPrefixOf r then some (.null, r.drop 3) else none
      else if c = 't' then
        if ['r', 'u', 'e'].isPrefixOf r then some (.bool true, r.drop 3) else none
      else if c = 'f' then
        if ['a', 'l', 's', 'e'].isPrefixOf r then some (.bool false, r.drop 4) else none
      else if c = '"' then
        (parseStrAux r).map (fun p => (.str p.1, p.2))
      else if c = '[' then
        parseArr fuel r
      else if c = '\x7b' then
        parseObj fuel r
      else if c = '-' ∨ c.isDigit then
        (parseNumber (c :: r)).map (fun p => (.num p.1, p.2))
      else none

def parseArr : Nat → List Char → Option (Json × List Char)
  | 0, _ => none
  | fuel + 1, s =>
    match skipWs s with
    | ']' :: r => some (.arr [], r)
    | _ => parseArrItems fuel s []

def parseArrItems : Nat → List Char → List Json → Option (Json × List Char)
  | 0, _, _ => none
  | fuel + 1, s, acc =>
    match parseVal fuel s with
    | none => none
    | some (v, r) =>
      match skipWs r with
      | ',' :: r2 => parseArrItems fuel r2 (acc ++ [v])
      | ']' :: r2 => some (.arr (acc ++ [v]), r2)
      | _ => none

def parseObj : Nat → List Char → Option (Json × List Char)
  | 0, _ => none
  | fuel + 1, s =>
    match skipWs s with
    | '\x7d' :: r => some (.obj [], r)
    | _ => parseObjItems fuel s []

def parseObjItems : Nat → List Char → List (List Char × Json) → Option (Json × List Char)
  | 0, _, _ => none
  | fuel + 1, s, acc =>
    match skipWs s with
    | '"' :: r =>
      match parseStrAux r with
      | none => none
      | some (key, r2) =>
        match skipWs r2 with
        | ':' :: r3 =>
          match parseVal fuel r3 with
          | none => none
          | some (v, r4) =>
            match skipWs r4 with
            | ',' :: r5 => parseObjItems fuel r5 (pyDictInsert acc key v)
            | '\x7d' :: r5 => some (.obj (pyDictInsert acc key v), r5)
            | _ => none
        | _ => none
    | _ => none

end

/-- Model of `json.loads`: parse one JSON document, requiring the entire
input (up to trailing whitespace) to be consumed; `none` models a raised
`json.JSONDecodeError`. -/
def json_loads (s : List Char) : Option Json :=
  match parseVal (3 * s.length + 3) s with
  | some (v, rest) => if skipWs rest = [] then some v else none
  | none => none

/-!
### `OpenAIProvider._parse_response` (form_detector.py)

The provider parses its raw text response by taking the text between the
first "```json" marker and the following "```" when "```json" occurs, else
the text between the first and second "```" when "```" occurs, else the
raw text; the result is stripped and passed to `json.loads`, and a
`JSONDecodeError` is replaced by a fixed failure object.
-/

/-- The fixed object `_parse_response` returns when `json.loads` fails. -/
def parseFailureJson : Json :=
  .obj [("form_found".data, .bool false), ("fields".data, .arr []),
    ("confidence".data, .num 0), ("error".data, .str "Failed to parse LLM response".data)]

/-- The extraction step of `_parse_response`: strip the first fenced code
block if present, otherwise use the raw text verbatim. -/
def extractJsonStr (content : List Char) : List Char :=
  if containsSub jsonFenceMark content then
    (splitOnSub btMark ((splitOnSub jsonFenceMark content).getD 1 [])).headD []
  else if containsSub btMark content then
    (splitOnSub btMark ((splitOnSub btMark content).getD 1 [])).headD []
  else content

/-- Model of `OpenAIProvider._parse_response`. -/
def parse_response (content : List Char) : Json :=
  (json_loads (pyStrip (extractJsonStr content))).getD parseFailureJson

/-!
### Schemas (schemas.py)

`FormField` and `FormDetectionResult` mirror the pydantic models.  The
pydantic `float` confidence is modelled as a rational number (the code only
ever produces decimal literals).  Pydantic lax coercions of strings to
numbers or booleans are not modelled; a value of the wrong shape is treated
as a validation error, which the service catches.
-/

structure FormField where
  name : String
  field_type : String
  label : Option String := none
  placeholder : Option String := none
  required : Bool := false
  selector : String
  options : Option (List String) := none
deriving DecidableEq

structure FormDetectionResult where
  url : String
  form_found : Bool
  form_selector : Option String := none
  fields : List FormField := []
  submit_button_selector : Option String := none
  screenshot_path : Option String := none
  confidence : Rat := 0
deriving DecidableEq

/-!
### `FormDetectionService.detect_form` (form_detector.py)

The interaction with the provider HTTP API is abstracted into a
`ProviderOutcome`: a transport error (the HTTP client raised), an HTTP
response with a status code and, for well-formed API envelopes, the raw
message text (`none` models an envelope from which the text cannot be
extracted, which raises a `KeyError` inside `analyze_form`).  Both kinds of
raise, and the non-200 `raise Exception(...)`, are modelled as `Except`
errors; `detect_form` catches every error and returns the zero-confidence
failure result, so the model is a total function, mirroring the
never-raises contract.
-/

inductive ProviderOutcome where
  | transportError : ProviderOutcome
  | httpResponse (status : Nat) (content : Option (List Char)) : ProviderOutcome

/-- Model of `OpenAIProvider.analyze_form`: raises on transport errors and
non-200 statuses, otherwise extracts the message text and parses it with
`_parse_response` (which never raises). -/
def analyze_form : ProviderOutcome → Except String Json
  | .transportError => .error "transport error"
  | .httpResponse status content =>
    if status ≠ 200 then .error "OpenAI API error"
    else
      match content with
      | none => .error "malformed API envelope"
      | some text => .ok (parse_response text)

def getStrField (kvs : List (List Char × Json)) (k : String) (d : String) :
    Except Unit String :=
  match pyDictGet kvs k.data with
  | none => .ok d
  | some (.str s) => .ok (String.mk s)
  | some _ => .error ()

def getOptStrField (kvs : List (List Char × Json)) (k : String) :
    Except Unit (Option String) :=
  match pyDictGet kvs k.data with
  | none => .ok none
  | some .null => .ok none
  | some (.str s) => .ok (some (String.mk s))
  | some _ => .error ()

def getBoolField (kvs : List (List Char × Json)) (k : String) (d : Bool) :
    Except Unit Bool :=
  match pyDictGet kvs k.data with
  | none => .ok d
  | some (.bool b) => .ok b
  | some _ => .error ()

def getNumField (kvs : List (List Char × Json)) (k : String) (d : Rat) :
    Except Unit Rat :=
  match pyDictGet kvs k.data with
  | none => .ok d
  | some (.num q) => .ok q
  | some _ => .error ()

def jsonToStr : Json → Except Unit String
  | .str s => .ok (String.mk s)
  | _ => .error ()

def getOptStrListField (kvs : List (List Char × Json)) (k : String) :
    Except Unit (Option (List String)) :=
  match pyDictGet kvs k.data with
  | none => .ok none
  | some .null => .ok none
  | some (.arr l) => (l.mapM jsonToStr).map some
  | some _ => .error ()

/-- Build one `FormField` from a provider field object, mirroring the
`FormField(...)` construction in `detect_form`; a value pydantic would
reject surfaces as a validation error. -/
def build_form_field (j : Json) : Except Unit FormField :=
  match j with
  | .obj kvs => do
    let name ← getStrField kvs "name" ""
    let field_type ← getStrField kvs "field_type" "text"
    let label ← getOptStrField kvs "label"
    let placeholder ← getOptStrField kvs "placeholder"
    let required ← getBoolField kvs "required" false
    let selector ← getStrField kvs "selector" ""
    let options ← getOptStrListField kvs "options"
    .ok { name := name, field_type := field_type, label := label,
          placeholder := placeholder, required := required,
          selector := selector, options := options }
  | _ => .error ()

/-- Build the `FormDetectionResult` from the parsed provider object,
mirroring the body of `detect_form`; a non-object value, or a `fields`
value that is not a list, raises (a list of raw characters iterated by a
non-list iterable is approximated by this error, which the outer handler
catches either way). -/
def build_detection_result (url : String) (j : Json) :
    Except Unit FormDetectionResult :=
  match j with
  | .obj kvs => do
    let fieldsJson ←
      match pyDictGet kvs "fields".data with
      | none => Except.ok []
      | some (.arr l) => Except.ok l
      | some _ => Except.error ()
    let fields ← fieldsJson.mapM build_form_field
    let form_found ← getBoolField kvs "form_found" false
    let form_selector ← getOptStrField kvs "form_selector"
    let submit_button_selector ← getOptStrField kvs "submit_button_selector"
    let confidence ← getNumField kvs "confidence" 0
    .ok { url := url, form_found := form_found,
          form_selector := form_selector, fields := fields,
          submit_button_selector := submit_button_selector,
          confidence := confidence }
  | _ => .error ()

/-- The zero-confidence failure result `detect_form` returns when anything
goes wrong. -/
def failure_result (url : String) : FormDetectionResult :=
  { url := url, form_found := false, fields := [], confidence := 0 }

/-- Model of `FormDetectionService.detect_form`: total — every raise inside
the body is caught and collapsed to the failure result. -/
def detect_form (url : String) (o : ProviderOutcome) : FormDetectionResult :=
  match analyze_form o with
  | .error _ => failure_result url
  | .ok j =>
    match build_detection_result url j with
    | .ok r => r
    | .error _ => failure_result url

/-!
### `RuleBasedFormDetector.detect_fields_from_html` (form_detector.py)

The HTML page is embedded at the level BeautifulSoup delivers it to the
detector: the `input`/`textarea`/`select` elements in document order, each
with its relevant attributes (`none` = attribute absent, `some ""` =
attribute present but empty), plus the `label` elements as pairs of their
`for` attribute and stripped text.
-/

structure HtmlEl where
  tag : String
  typeAttr : Option String := none
  idAttr : Option String := none
  nameAttr : Option String := none
  placeholderAttr : Option String := none
  requiredPresent : Bool := false
deriving DecidableEq

structure HtmlDoc where
  elements : List HtmlEl
  labels : List (String × String) := []
deriving DecidableEq

/-- Python truthiness of `element.get(attr)`: present and non-empty. -/
def optTruthy : Option String → Bool
  | none => false
  | some s => !s.isEmpty

/-- Python `a or b` for strings. -/
def pyOrStr (a b : String) : String := if a.isEmpty then b else a

def formTags : List String := ["input", "textarea", "select"]

/-- `soup.find("label", for := id)`: the first label whose `for` matches. -/
def findLabel (doc : HtmlDoc) (idv : String) : Option String :=
  (doc.labels.find? (fun l => l.1 == idv)).map (·.2)

/-- The `FormField` built for one targetable element (one that survives the
`continue`), mirroring the loop body of `detect_fields_from_html`. -/
def ruleFieldOf (doc : HtmlDoc) (e : HtmlEl) : FormField :=
  { name := pyOrStr (e.nameAttr.getD "") (e.idAttr.getD ""),
    field_type :=
      if e.tag == "textarea" then "textarea"
      else if e.tag == "select" then "select"
      else e.typeAttr.getD "text",
    label := if optTruthy e.idAttr then findLabel doc (e.idAttr.getD "") else none,
    placeholder := some (e.placeholderAttr.getD ""),
    required := e.requiredPresent,
    selector :=
      if optTruthy e.idAttr then "#" ++ e.idAttr.getD ""
      else "[name=\x27" ++ e.nameAttr.getD "" ++ "\x27]",
    options := none }

/-- An element can be targeted (not skipped) when it has a non-empty id or
a non-empty name. -/
def targetable (e : HtmlEl) : Bool := optTruthy e.idAttr || optTruthy e.nameAttr

/-- Model of `RuleBasedFormDetector.detect_fields_from_html`. -/
def detect_fields_from_html (doc : HtmlDoc) : List FormField :=
  (doc.elements.filter (fun e => formTags.contains e.tag)).filterMap
    (fun e => if targetable e then some (ruleFieldOf doc e) else none)

/-!
### `FormDetectionService.map_saas_data_to_fields` (form_detector.py)
-/

structure MappedValue where
  field_name : String
  field_type : String
  value : String
deriving DecidableEq

/-- The ordered synonym table `field_mapping`, exactly as written in the
source (Python dicts preserve insertion order). -/
def field_mapping : List (String × List String) :=
  [("name", ["name", "saas_name", "product_name", "title", "tool_name", "startup_name"]),
   ("product_name", ["name", "saas_name"]),
   ("tool_name", ["name"]),
   ("startup_name", ["name"]),
   ("title", ["name", "tagline"]),
   ("url", ["website_url", "url", "website", "link", "homepage"]),
   ("website", ["website_url"]),
   ("website_url", ["website_url"]),
   ("link", ["website_url"]),
   ("homepage", ["website_url"]),
   ("description", ["short_description", "long_description", "tagline"]),
   ("short_description", ["short_description", "tagline"]),
   ("long_description", ["long_description", "short_description"]),
   ("tagline", ["tagline", "short_description"]),
   ("summary", ["short_description"]),
   ("about", ["long_description", "short_description"]),
   ("email", ["contact_email"]),
   ("contact_email", ["contact_email"]),
   ("contact", ["contact_email"]),
   ("category", ["category"]),
   ("categories", ["category"]),
   ("type", ["category"]),
   ("pricing", ["pricing_model", "pricing_details"]),
   ("price", ["pricing_model"]),
   ("pricing_model", ["pricing_model"]),
   ("twitter", ["twitter_url"]),
   ("twitter_url", ["twitter_url"]),
   ("linkedin", ["linkedin_url"]),
   ("github", ["github_url"])]

/-- `s.lower().replace("-", "_").replace(" ", "_")` on field names/labels. -/
def pyNormalize (s : List Char) : List Char :=
  (pyLower s).map (fun c => if c = '-' ∨ c = ' ' then '_' else c)

/-- `saas_key in saas_data and saas_data[saas_key]`: the value when the key
is present and truthy. -/
def truthyLookup (d : List (String × String)) (k : String) : Option String :=
  match pyDictGet d k with
  | some v => if v.isEmpty then none else some v
  | none => none

/-- The value the mapper chooses for one field: the first synonym group
whose key substring-matches the normalized name or label AND whose
candidate list yields a present, non-empty product attribute (a matching
group with no usable attribute falls through to later groups, mirroring
the `if matched_value: break` control flow). -/
def matchField (f : FormField) (d : List (String × String)) : Option String :=
  field_mapping.findSome? (fun km =>
    if containsSub km.1.data (pyNormalize f.name.data) ||
        containsSub km.1.data (pyNormalize (f.label.getD "").data) then
      km.2.findSome? (fun sk => truthyLookup d sk)
    else none)

/-- The entry the mapper stores for a matched field. -/
def mappedEntry (f : FormField) (v : String) : MappedValue :=
  { field_name := f.name, field_type := f.field_type, value := v }

/-- One iteration of the mapper loop: store the matched value under the
field selector, or leave the dict unchanged. -/
def mapStep (d : List (String × String)) (acc : List (String × MappedValue))
    (f : FormField) : List (String × MappedValue) :=
  match matchField f d with
  | some v => pyDictInsert acc f.selector (mappedEntry f v)
  | none => acc

/-- Model of `FormDetectionService.map_saas_data_to_fields`. -/
def map_saas_data_to_fields (fields : List FormField)
    (d : List (String × String)) : List (String × MappedValue) :=
  fields.foldl (mapStep d) []

/-- The per-field choice as the specification words it: the first synonym
group whose key substring-matches wins outright, and only that group's
candidates are consulted.  Defined for comparison with `matchField`, which
is translated from the code. -/
def specMatchField (f : FormField) (d : List (String × String)) : Option String :=
  match field_mapping.find? (fun km =>
      containsSub km.1.data (pyNormalize f.name.data) ||
      containsSub km.1.data (pyNormalize (f.label.getD "").data)) with
  | some km => km.2.findSome? (fun sk => truthyLookup d sk)
  | none => none

/-- The mapping as the specification words it (same dict semantics, but
with `specMatchField` as the per-field choice). -/
def spec_map_saas_data_to_fields (fields : List FormField)
    (d : List (String × String)) : List (String × MappedValue) :=
  fields.foldl (fun acc f =>
    match specMatchField f d with
    | some v => pyDictInsert acc f.selector (mappedEntry f v)
    | none => acc) []

/-!
### `BrowserAutomation.detect_form` (browser.py)

The primary (LLM) detection outcome and the page HTML are the inputs; the
wrapper applies the rule-based fallback exactly when the primary result
reports no form or an empty field list.
-/

def browser_detect_form (url : String) (primary : FormDetectionResult)
    (doc : HtmlDoc) : FormDetectionResult :=
  if !primary.form_found || primary.fields.length == 0 then
    let fields := detect_fields_from_html doc
    if fields.isEmpty then primary
    else { url := url, form_found := true, fields := fields,
           confidence := mkRat 1 2 }
  else primary

/-!
### `BrowserAutomation.check_submission_success` and the executor verdict
(browser.py)
-/

def success_phrases : List String :=
  ["thank you", "thanks for", "successfully submitted", "submission received",
   "we will review", "pending approval", "listing added", "product added",
   "successfully added"]

def error_phrases : List String :=
  ["error", "failed", "invalid", "required field", "please fill",
   "already exists", "duplicate"]

structure CheckOutcome where
  success : Option Bool
  message : String
deriving DecidableEq

/-- Model of `check_submission_success`: the success list is scanned first
over the lower-cased page body, then the error list; no hit from either
leaves the outcome undetermined. -/
def check_submission_success (html : List Char) : CheckOutcome :=
  let hl := pyLower html
  match success_phrases.find? (fun p => containsSub p.data hl) with
  | some p => { success := some true, message := "Detected success phrase: " ++ p }
  | none =>
    match error_phrases.find? (fun p => containsSub p.data hl) with
    | some p => { success := some false, message := "Detected error phrase: " ++ p }
    | none => { success := none, message := "Could not determine submission result" }

structure RunVerdict where
  success : Bool
  error : Option String := none
  note : Option String := none
deriving DecidableEq

/-- The tail of `SubmissionExecutor.execute_submission` after the submit
click: how the check outcome is folded into the run result (`success is
True` / `is False` / indeterminate). -/
def executor_verdict (html : List Char) : RunVerdict :=
  let c := check_submission_success html
  match c.success with
  | some true => { success := true }
  | some false => { success := false, error := some c.message }
  | none => { success := true, note := some "Could not confirm, assuming success" }

/-!
### Submission records and `SubmissionService` (models.py, submission_service.py)

Timestamps are integers (seconds); `datetime.utcnow() - timedelta(hours=1)`
becomes `now - 3600`.  The JSON `detected_fields`/`filled_fields` snapshots
are carried as optional `Json` values.
-/

inductive PySubmissionStatus where
  | pending | in_progress | submitted | approved | rejected | failed
  | requires_review
deriving DecidableEq

structure LogEntry where
  status : String
  error : Option String := none
  timestamp : Int := 0
  attempt : Nat := 0
deriving DecidableEq

structure Submission where
  id : Nat
  status : PySubmissionStatus
  attempt_count : Nat := 0
  max_attempts : Nat := 3
  last_attempt_at : Option Int := none
  submitted_at : Option Int := none
  approved_at : Option Int := none
  listing_url : Option String := none
  submission_log : List LogEntry := []
  error_message : Option String := none
  screenshot_path : Option String := none
  detected_fields : Option Json := none
  filled_fields : Option Json := none
  created_at : Int := 0
  updated_at : Int := 0

/-- Python truthiness of an optional JSON value (`if detected_fields:`):
absent, an empty dict and an empty list are falsy. -/
def jsonOptTruthy : Option Json → Bool
  | none => false
  | some (.obj kvs) => !kvs.isEmpty
  | some (.arr l) => !l.isEmpty
  | some (.str s) => !s.isEmpty
  | some (.bool b) => b
  | some (.num q) => !(q == 0)
  | some .null => false

/-- Model of `SubmissionService.update_status`: sets status and
`updated_at`, stamps `submitted_at`/`approved_at` on those statuses, and
overwrites `error_message`, `listing_url`, `screenshot_path` only when the
corresponding argument is truthy (`if error_message:` etc.). -/
def update_status (now : Int) (s : Submission) (st : PySubmissionStatus)
    (error_message listing_url screenshot_path : Option String) : Submission :=
  let s1 := { s with status := st, updated_at := now }
  let s2 :=
    if st = .submitted then { s1 with submitted_at := some now }
    else if st = .approved then { s1 with approved_at := some now }
    else s1
  let s3 :=
    if optTruthy error_message then { s2 with error_message := error_message }
    else s2
  let s4 :=
    if optTruthy listing_url then { s3 with listing_url := listing_url } else s3
  if optTruthy screenshot_path then { s4 with screenshot_path := screenshot_path }
  else s4

/-- Model of `SubmissionService.record_attempt`: increments
`attempt_count`, stamps `last_attempt_at`, appends the stamped entry to the
log, and overwrites the detected/filled snapshots when truthy. -/
def record_attempt (now : Int) (s : Submission) (entry : LogEntry)
    (detected filled : Option Json) : Submission :=
  let cnt := s.attempt_count + 1
  let s1 := { s with attempt_count := cnt,
                     last_attempt_at := some now,
                     submission_log := s.submission_log ++
                       [{ entry with timestamp := now, attempt := cnt }] }
  let s2 := if jsonOptTruthy detected then { s1 with detected_fields := detected }
    else s1
  if jsonOptTruthy filled then { s2 with filled_fields := filled } else s2

/-- Eligibility filter of `get_pending_submissions`: status PENDING and
attempts remaining. -/
def pendingElig (s : Submission) : Bool :=
  decide (s.status = .pending) && decide (s.attempt_count < s.max_attempts)

def leCreated (a b : Submission) : Bool := decide (a.created_at ≤ b.created_at)

/-- Model of `SubmissionService.get_pending_submissions`: the PENDING jobs
with attempts remaining, ordered by creation time, first `limit` of them. -/
def get_pending_submissions (jobs : List Submission) (limit : Nat) :
    List Submission :=
  ((jobs.filter pendingElig).mergeSort leCreated).take limit

/-- Eligibility filter of `get_retryable_submissions`: status FAILED,
attempts remaining, and never attempted or last attempted strictly before
`now - 3600` (one hour ago). -/
def retryElig (now : Int) (s : Submission) : Bool :=
  decide (s.status = .failed) && decide (s.attempt_count < s.max_attempts) &&
    (match s.last_attempt_at with
     | none => true
     | some t => decide (t < now - 3600))

/-- `ORDER BY last_attempt_at ASC NULLS FIRST`. -/
def nullsFirstLe (a b : Submission) : Bool :=
  match a.last_attempt_at, b.last_attempt_at with
  | none, _ => true
  | some _, none => false
  | some x, some y => decide (x ≤ y)

/-- Model of `SubmissionService.get_retryable_submissions`. -/
def get_retryable_submissions (jobs : List Submission) (now : Int)
    (limit : Nat) : List Submission :=
  ((jobs.filter (retryElig now)).mergeSort nullsFirstLe).take limit

/-!
### `SubmissionWorker` (submission_worker.py)
-/

/-- The jobs one pass of `SubmissionWorker._process_queue` fetches: it
calls only `get_pending_submissions`, with the free concurrency budget as
the limit. -/
def worker_queue_selection (jobs : List Submission)
    (max_concurrent current_tasks : Nat) : List Submission :=
  get_pending_submissions jobs (max_concurrent - current_tasks)

/-- The pipeline run result dict as the worker consumes it. -/
structure ExecResult where
  success : Bool
  error : Option String := none
  screenshot_path : Option String := none
  detected_fields : Option Json := none
  filled_fields : Option Json := none

/-- How one execution of a job ends: with a structured result, or with an
exception raised during execution and caught at the job boundary. -/
inductive ExecOutcome where
  | result (r : ExecResult) : ExecOutcome
  | raised (msg : String) : ExecOutcome

/-- Model of `SubmissionWorker._process_submission` on one job: status to
IN_PROGRESS; on a structured result, `record_attempt` then the final
status — SUBMITTED on success, else FAILED when the attempt count read
back from the session (the post-increment value, since `record_attempt`
mutates the same identity-mapped ORM object) has reached
`max_attempts - 1`, else PENDING; on an exception, status FAILED with the
exception message and no `record_attempt`. -/
def process_submission (now : Int) (s : Submission) (outcome : ExecOutcome) :
    Submission :=
  let s1 := update_status now s .in_progress none none none
  match outcome with
  | .raised msg => update_status now s1 .failed (some msg) none none
  | .result r =>
    let s2 := record_attempt now s1
      { status := if r.success then "success" else "failed", error := r.error }
      r.detected_fields r.filled_fields
    if r.success then
      update_status now s2 .submitted none none r.screenshot_path
    else
      let st := if s2.max_attempts - 1 ≤ s2.attempt_count then
          PySubmissionStatus.failed
        else PySubmissionStatus.pending
      update_status now s2 st r.error none r.screenshot_path

/-- Constructor discriminator used to separate a parsed number from the
parse-failure object. -/
def Json.isNumber : Json → Bool
  | .num _ => true
  | _ => false

/-- A FAILED job last attempted 3660 s (61 minutes) before the reference
instant 10000. -/
def jobRetry61 : Submission :=
  { id := 61, status := .failed, attempt_count := 1, max_attempts := 3,
    last_attempt_at := some 6340 }

/-- A FAILED job last attempted exactly 3600 s (one hour) before the
reference instant 10000. -/
def jobRetry3600 : Submission :=
  { id := 62, status := .failed, attempt_count := 1, max_attempts := 3,
    last_attempt_at := some 6400 }

/-- A FAILED job last attempted 600 s (10 minutes) before the reference
instant 10000. -/
def jobRetry600 : Submission :=
  { id := 63, status := .failed, attempt_count := 1, max_attempts := 3,
    last_attempt_at := some 9400 }

/-- The counterexample field: its normalized name "name_url" key-matches
the "name" synonym group first, but also the later "url" group. -/
def fieldNameUrl : FormField :=
  { name := "name_url", field_type := "text", selector := "#u" }

/-- Product data carrying only a website URL. -/
def dataWebsiteOnly : List (String × String) := [("website_url", "https://x.io")]

/-- The claim example field, named "website_url". -/
def fieldWebsiteUrl : FormField :=
  { name := "website_url", field_type := "url", selector := "#website_url" }

theorem splitAux_of_not_contains (sep : List Char) (acc : List Char) (s : List Char)
    (h : containsSub sep s = false) : splitAux sep acc 0 s = [acc.reverse ++ s] := by
  induction s generalizing acc with
  | nil => simp [splitAux]
  | cons c cs ih =>
    simp only [containsSub, Bool.or_eq_false_iff] at h
    rw [splitAux, if_neg (by simp [h.1])]
    rw [ih _ h.2]
    simp

theorem splitAux_skip (sep : List Char) (t acc r : List Char) :
    splitAux sep acc t.length (t ++ r) = splitAux sep acc 0 r := by
  induction t generalizing acc with
  | nil => simp
  | cons c t ih =>
    rw [List.cons_append]
    rw [show (c :: t).length = t.length + 1 from rfl]
    rw [splitAux]
    exact ih acc

theorem splitAux_append_no_occ (sep : List Char) (a b acc : List Char)
    (h : ∀ i, i < a.length → sep.isPrefixOf ((a ++ b).drop i) = false) :
    splitAux sep acc 0 (a ++ b) = splitAux sep (a.reverse ++ acc) 0 b := by
  induction a generalizing acc with
  | nil => simp
  | cons c a' ih =>
    have h0 : sep.isPrefixOf (c :: (a' ++ b)) = false := by
      have := h 0 (by simp)
      simpa using this
    rw [List.cons_append, splitAux, if_neg (by simp [h0])]
    rw [ih (c :: acc) (fun i hi => by
      have := h (i + 1) (by simp; omega)
      simpa using this)]
    simp

theorem isPrefixOf_append_self (sep b : List Char) :
    sep.isPrefixOf (sep ++ b) = true := by
  rw [List.isPrefixOf_iff_prefix]
  exact List.prefix_append sep b

/-- If the first occurrence of `sep` in `a ++ sep ++ b` is the displayed one
(no occurrence starts inside `a`), the split isolates `a` as the first chunk. -/
theorem splitAux_first_occ (sep : List Char) (hsep : sep ≠ []) (a b acc : List Char)
    (h : ∀ i, i < a.length → sep.isPrefixOf ((a ++ sep ++ b).drop i) = false) :
    splitAux sep acc 0 (a ++ sep ++ b) = (acc.reverse ++ a) :: splitAux sep [] 0 b := by
  have step : splitAux sep (a.reverse ++ acc) 0 (sep ++ b) =
      (acc.reverse ++ a) :: splitAux sep [] 0 b := by
    obtain ⟨d, sep', rfl⟩ : ∃ d sep', sep = d :: sep' := by
      cases sep with
      | nil => exact absurd rfl hsep
      | cons d sep' => exact ⟨d, sep', rfl⟩
    have hpref : (d :: sep').isPrefixOf (d :: (sep' ++ b)) = true := by
      rw [← List.cons_append]
      exact isPrefixOf_append_self (d :: sep') b
    rw [List.cons_append, splitAux, if_pos hpref]
    have hskip : splitAux (d :: sep') [] ((d :: sep').length - 1) (sep' ++ b) =
        splitAux (d :: sep') [] 0 b := by
      rw [show (d :: sep').length - 1 = sep'.length from by simp]
      exact splitAux_skip (d :: sep') sep' [] b
    rw [hskip]
    simp
  calc splitAux sep acc 0 (a ++ sep ++ b)
      = splitAux sep (a.reverse ++ acc) 0 (sep ++ b) := by
        rw [List.append_assoc]
        exact splitAux_append_no_occ sep a (sep ++ b) acc (by
          intro i hi
          have := h i (by simpa using hi)
          rwa [List.append_assoc] at this)
    _ = (acc.reverse ++ a) :: splitAux sep [] 0 b := step

theorem contains_iff_exists_occ (sep s : List Char) :
    containsSub sep s = true ↔ ∃ i, sep.isPrefixOf (s.drop i) = true := by
  induction s with
  | nil =>
    simp only [containsSub]
    constructor
    · intro h; exact ⟨0, by simpa using h⟩
    · rintro ⟨i, hi⟩; simpa using hi
  | cons c cs ih =>
    simp only [containsSub, Bool.or_eq_true]
    constructor
    · rintro (h | h)
      · exact ⟨0, by simpa using h⟩
      · obtain ⟨i, hi⟩ := ih.mp h
        exact ⟨i + 1, by simpa using hi⟩
    · rintro ⟨i, hi⟩
      cases i with
      | zero => exact Or.inl (by simpa using hi)
      | succ i => exact Or.inr (ih.mpr ⟨i, by simpa using hi⟩)

theorem not_contains_of_prefix_trans {p sep s : List Char}
    (hp : p <+: sep) (h : containsSub p s = false) : containsSub sep s = false := by
  by_contra hc
  rw [Bool.not_eq_false, contains_iff_exists_occ] at hc
  obtain ⟨i, hi⟩ := hc
  rw [List.isPrefixOf_iff_prefix] at hi
  have : p.isPrefixOf (s.drop i) = true := by
    rw [List.isPrefixOf_iff_prefix]
    exact hp.trans hi
  have : containsSub p s = true := (contains_iff_exists_occ p s).mpr ⟨i, this⟩
  simp [h] at this

theorem btMark_isPrefixOf_iff (t : List Char) :
    btMark.isPrefixOf t = true ↔
      t[0]? = some '`' ∧ t[1]? = some '`' ∧ t[2]? = some '`' := by
  cases t with
  | nil => simp [btMark, List.isPrefixOf]
  | cons a t1 =>
    cases t1 with
    | nil => simp [btMark, List.isPrefixOf]
    | cons b t2 =>
      cases t2 with
      | nil => simp [btMark, List.isPrefixOf]
      | cons c t3 =>
        simp only [btMark, List.isPrefixOf, Bool.and_eq_true, beq_iff_eq,
          List.getElem?_cons_zero, List.getElem?_cons_succ, Option.some.injEq]
        constructor
        · rintro ⟨h1, h2, h3, -⟩
          exact ⟨h1.symm, h2.symm, h3.symm⟩
        · rintro ⟨h1, h2, h3⟩
          exact ⟨h1.symm, h2.symm, h3.symm, trivial⟩

theorem contains_bt_of_three (j : List Char) (k : Nat)
    (h0 : j[k]? = some '`') (h1 : j[k + 1]? = some '`') (h2 : j[k + 2]? = some '`') :
    containsSub btMark j = true := by
  refine (contains_iff_exists_occ btMark j).mpr ⟨k, ?_⟩
  rw [btMark_isPrefixOf_iff]
  refine ⟨?_, ?_, ?_⟩ <;> rw [List.getElem?_drop] <;> assumption

theorem fenceTail_eq_cons (j : List Char) :
    fenceTail j = '\n' :: (j ++ ('\n' :: btMark)) := by
  simp [fenceTail, nlMark]

theorem fenceTail_getElem_zero (j : List Char) : (fenceTail j)[0]? = some '\n' := by
  rw [fenceTail_eq_cons]
  simp

theorem fenceTail_getElem_inJ (j : List Char) (k : Nat) (h1 : 1 ≤ k)
    (h2 : k ≤ j.length) : (fenceTail j)[k]? = j[k - 1]? := by
  obtain ⟨m, rfl⟩ : ∃ m, k = m + 1 := ⟨k - 1, by omega⟩
  have hm : m < j.length := by omega
  rw [fenceTail_eq_cons]
  simp [List.getElem?_append, hm]

theorem fenceTail_getElem_mid (j : List Char) :
    (fenceTail j)[j.length + 1]? = some '\n' := by
  rw [fenceTail_eq_cons, List.getElem?_cons_succ,
    List.getElem?_append_right (Nat.le_refl j.length), Nat.sub_self]
  simp

theorem fenceTail_length (j : List Char) : (fenceTail j).length = j.length + 5 := by
  simp [fenceTail, nlMark, btMark]

theorem fenceTail_getElem_past (j : List Char) (k : Nat) (h : j.length + 5 ≤ k) :
    (fenceTail j)[k]? = none := by
  apply List.getElem?_eq_none
  rw [fenceTail_length]
  omega

/-- In a fenced response whose body `j` contains no "```", the only occurrence
of the closing "```" marker in the tail is the final one. -/
theorem bt_occ_in_fenceTail (j : List Char) (hj : containsSub btMark j = false)
    (i : Nat) (h : btMark.isPrefixOf ((fenceTail j).drop i) = true) :
    i = j.length + 2 := by
  rw [btMark_isPrefixOf_iff] at h
  obtain ⟨h0, h1, h2⟩ := h
  rw [List.getElem?_drop] at h0 h1 h2
  simp only [Nat.add_zero] at h0
  by_cases hi0 : i = 0
  · rw [hi0, fenceTail_getElem_zero] at h0
    simp at h0
  by_cases hbig : j.length + 3 ≤ i
  · rw [fenceTail_getElem_past j (i + 2) (by omega)] at h2
    simp at h2
  by_cases hmid : i = j.length + 1
  · rw [hmid, fenceTail_getElem_mid] at h0
    simp at h0
  by_cases hdone : i = j.length + 2
  · exact hdone
  obtain ⟨t, rfl⟩ : ∃ t, i = t + 1 := ⟨i - 1, by omega⟩
  by_cases hc2 : t + 2 ≤ j.length
  · by_cases hc3 : t + 3 ≤ j.length
    · rw [fenceTail_getElem_inJ j (t + 1) (by omega) (by omega)] at h0
      rw [fenceTail_getElem_inJ j (t + 2) (by omega) (by omega)] at h1
      rw [fenceTail_getElem_inJ j (t + 3) (by omega) (by omega)] at h2
      simp only [Nat.add_sub_cancel] at h0 h1 h2
      have := contains_bt_of_three j t h0 h1 h2
      simp [hj] at this
    · rw [show t + 1 + 2 = j.length + 1 from by omega, fenceTail_getElem_mid] at h2
      simp at h2
  · rw [show t + 1 + 1 = j.length + 1 from by omega, fenceTail_getElem_mid] at h1
    simp at h1

theorem isPrefixOf_length_le {p s : List Char} (h : p.isPrefixOf s = true) :
    p.length ≤ s.length := by
  rw [List.isPrefixOf_iff_prefix] at h
  exact h.length_le

theorem no_jsonFence_in_fenceTail (j : List Char)
    (hj : containsSub btMark j = false) :
    containsSub jsonFenceMark (fenceTail j) = false := by
  by_contra hc
  rw [Bool.not_eq_false, contains_iff_exists_occ] at hc
  obtain ⟨i, hi⟩ := hc
  have hbt : btMark.isPrefixOf ((fenceTail j).drop i) = true := by
    rw [List.isPrefixOf_iff_prefix] at hi ⊢
    exact (List.prefix_append btMark ['j', 's', 'o', 'n']).trans hi
  have hloc := bt_occ_in_fenceTail j hj i hbt
  subst hloc
  have hdrop : (fenceTail j).drop (j.length + 2) = btMark := by
    have : fenceTail j = (nlMark ++ j ++ nlMark) ++ btMark := by
      simp [fenceTail]
    rw [this]
    have hlen : (nlMark ++ j ++ nlMark).length = j.length + 2 := by
      simp [nlMark]
    rw [← hlen]
    exact List.drop_left _ _
  rw [hdrop] at hi
  have := isPrefixOf_length_le hi
  simp [jsonFenceMark, btMark] at this

theorem splitOn_jsonFence_fencedResp (j : List Char)
    (hj : containsSub btMark j = false) :
    splitOnSub jsonFenceMark (fencedResp j) = [[], fenceTail j] := by
  have h1 : fencedResp j = [] ++ jsonFenceMark ++ fenceTail j := by
    simp [fencedResp]
  rw [splitOnSub, h1]
  rw [splitAux_first_occ jsonFenceMark (by simp [jsonFenceMark, btMark]) [] (fenceTail j) []
    (by intro i hi; simp at hi)]
  rw [splitAux_of_not_contains jsonFenceMark [] (fenceTail j)
    (no_jsonFence_in_fenceTail j hj)]
  simp

theorem splitOn_bt_fenceTail (j : List Char) (hj : containsSub btMark j = false) :
    splitOnSub btMark (fenceTail j) = [nlMark ++ j ++ nlMark, []] := by
  have h1 : fenceTail j = (nlMark ++ j ++ nlMark) ++ btMark ++ [] := by
    simp [fenceTail]
  rw [splitOnSub, h1]
  rw [splitAux_first_occ btMark (by simp [btMark]) (nlMark ++ j ++ nlMark) [] []
    (by
      intro i hi
      by_contra hocc
      rw [Bool.not_eq_false] at hocc
      have hre : (nlMark ++ j ++ nlMark) ++ btMark ++ [] = fenceTail j := h1.symm
      rw [hre] at hocc
      have := bt_occ_in_fenceTail j hj i hocc
      have hlen : (nlMark ++ j ++ nlMark).length = j.length + 2 := by
        simp [nlMark]
      omega)]
  simp [splitAux]

theorem pyStrip_fence_body (j : List Char) :
    pyStrip (nlMark ++ j ++ nlMark) = pyStrip j := by
  have hs : nlMark ++ j ++ nlMark = '\n' :: (j ++ ['\n']) := by simp [nlMark]
  rw [hs]
  simp only [pyStrip, List.dropWhile_cons]
  rw [if_pos (by simp [pyIsSpace])]
  rw [List.dropWhile_append]
  by_cases hempty : (List.dropWhile pyIsSpace j).isEmpty = true
  · rw [if_pos hempty]
    have : List.dropWhile pyIsSpace ['\n'] = [] := by simp [pyIsSpace]
    rw [this]
    rw [List.isEmpty_iff] at hempty
    rw [hempty]
  · rw [if_neg hempty]
    have : (List.dropWhile pyIsSpace j ++ ['\n']).reverse =
        '\n' :: (List.dropWhile pyIsSpace j).reverse := by simp
    rw [this, List.dropWhile_cons, if_pos (by simp [pyIsSpace])]

theorem extractJsonStr_fenced (j : List Char) (hj : containsSub btMark j = false) :
    extractJsonStr (fencedResp j) = nlMark ++ j ++ nlMark := by
  have hc1 : containsSub jsonFenceMark (fencedResp j) = true := by
    refine (contains_iff_exists_occ _ _).mpr ⟨0, ?_⟩
    rw [List.drop_zero]
    exact isPrefixOf_append_self jsonFenceMark (fenceTail j)
  unfold extractJsonStr
  rw [if_pos hc1, splitOn_jsonFence_fencedResp j hj]
  have : ([[], fenceTail j].getD 1 []) = fenceTail j := by simp
  rw [this, splitOn_bt_fenceTail j hj]
  simp

theorem extractJsonStr_plain (j : List Char) (hj : containsSub btMark j = false) :
    extractJsonStr j = j := by
  have hcJ : containsSub jsonFenceMark j = false := by
    refine not_contains_of_prefix_trans ?_ hj
    rw [jsonFenceMark]
    exact List.prefix_append btMark _
  unfold extractJsonStr
  rw [if_neg (by simp [hcJ]), if_neg (by simp [hj])]

/-! ### Projection lemmas for the service operations -/

theorem update_status_status (now : Int) (s : Submission) (st : PySubmissionStatus)
    (em lu sp : Option String) : (update_status now s st em lu sp).status = st := by
  unfold update_status
  split_ifs <;> rfl

theorem update_status_attempt_count (now : Int) (s : Submission)
    (st : PySubmissionStatus) (em lu sp : Option String) :
    (update_status now s st em lu sp).attempt_count = s.attempt_count := by
  unfold update_status
  split_ifs <;> rfl

theorem update_status_max_attempts (now : Int) (s : Submission)
    (st : PySubmissionStatus) (em lu sp : Option String) :
    (update_status now s st em lu sp).max_attempts = s.max_attempts := by
  unfold update_status
  split_ifs <;> rfl

theorem update_status_error_message (now : Int) (s : Submission)
    (st : PySubmissionStatus) (em lu sp : Option String) :
    (update_status now s st em lu sp).error_message =
      (if optTruthy em then em else s.error_message) := by
  unfold update_status
  split_ifs <;> rfl

theorem update_status_listing_url (now : Int) (s : Submission)
    (st : PySubmissionStatus) (em lu sp : Option String) :
    (update_status now s st em lu sp).listing_url =
      (if optTruthy lu then lu else s.listing_url) := by
  unfold update_status
  split_ifs <;> rfl

theorem update_status_screenshot_path (now : Int) (s : Submission)
    (st : PySubmissionStatus) (em lu sp : Option String) :
    (update_status now s st em lu sp).screenshot_path =
      (if optTruthy sp then sp else s.screenshot_path) := by
  unfold update_status
  split_ifs <;> rfl

theorem record_attempt_attempt_count (now : Int) (s : Submission)
    (entry : LogEntry) (det fil : Option Json) :
    (record_attempt now s entry det fil).attempt_count = s.attempt_count + 1 := by
  unfold record_attempt
  split_ifs <;> rfl

theorem record_attempt_max_attempts (now : Int) (s : Submission)
    (entry : LogEntry) (det fil : Option Json) :
    (record_attempt now s entry det fil).max_attempts = s.max_attempts := by
  unfold record_attempt
  split_ifs <;> rfl

theorem isEmpty_false_of_ne (e : String) (he : e ≠ "") : e.isEmpty = false := by
  rw [Bool.eq_false_iff]
  intro h
  exact he ((String.isEmpty_iff e).mp h)

/-! ## Claim theorems -/

/-- C1: the scheduler evaluates `submission.attempt_count >= max_attempts - 1`
AFTER `record_attempt` has incremented the identity-mapped object, so a job
becomes FAILED when the post-increment count reaches `max_attempts - 1`,
one attempt earlier than the claimed `max_attempts`.  Evaluating the worker
step at the failing input: a fresh job with `max_attempts = 2` whose single
pipeline run fails ends with `attempt_count = 1` and status FAILED, where
the claim (`max_attempts > 1`) requires PENDING. -/
theorem c1_terminal_failure_one_attempt_early :
    (process_submission 50 { id := 1, status := .pending, max_attempts := 2 }
        (.result { success := false, error := some "boom" })).attempt_count = 1 ∧
    (process_submission 50 { id := 1, status := .pending, max_attempts := 2 }
        (.result { success := false, error := some "boom" })).max_attempts = 2 ∧
    (process_submission 50 { id := 1, status := .pending, max_attempts := 2 }
        (.result { success := false, error := some "boom" })).status = .failed ∧
    (process_submission 50 { id := 1, status := .pending, max_attempts := 2 }
        (.result { success := false, error := some "boom" })).error_message =
      some "boom" :=
  ⟨rfl, rfl, rfl, rfl⟩

/-- C3 (counterexample): a job whose execution raises at the job boundary is
recorded FAILED with the exception message, but `record_attempt` is never
called on that path: `attempt_count` stays 0 instead of increasing by one
for the executed attempt, refuting the claim for the uncaught-exception
case. -/
theorem c3_counterexample :
    (process_submission 60 { id := 2, status := .pending } (.raised "boom")).status
        = .failed ∧
    (process_submission 60 { id := 2, status := .pending }
        (.raised "boom")).error_message = some "boom" ∧
    (process_submission 60 { id := 2, status := .pending }
        (.raised "boom")).attempt_count = 0 ∧
    ¬ (process_submission 60 { id := 2, status := .pending }
        (.raised "boom")).attempt_count =
      ({ id := 2, status := .pending } : Submission).attempt_count + 1 :=
  ⟨rfl, rfl, rfl, by decide⟩

/-- C3 (amended): `attempt_count` increases by exactly one per attempt that
yields a pipeline result (success or classified failure); an uncaught
exception caught at the job boundary records FAILED with the exception
message but does not change `attempt_count`; in all cases `attempt_count`
never decreases. -/
theorem c3_attempt_accounting (now : Int) (s : Submission) (r : ExecResult)
    (msg : String) :
    (process_submission now s (.result r)).attempt_count = s.attempt_count + 1 ∧
    (process_submission now s (.raised msg)).attempt_count = s.attempt_count ∧
    (process_submission now s (.raised msg)).status = .failed ∧
    (msg ≠ "" →
      (process_submission now s (.raised msg)).error_message = some msg) ∧
    (∀ o : ExecOutcome,
      s.attempt_count ≤ (process_submission now s o).attempt_count) := by
  refine ⟨?_, ?_, ?_, ?_, ?_⟩
  · show (process_submission now s (.result r)).attempt_count = s.attempt_count + 1
    unfold process_submission
    by_cases hs : r.success
    · simp [hs, update_status_attempt_count, record_attempt_attempt_count]
    · simp [hs, update_status_attempt_count, record_attempt_attempt_count]
  · unfold process_submission
    simp [update_status_attempt_count]
  · unfold process_submission
    simp [update_status_status]
  · intro hmsg
    unfold process_submission
    rw [update_status_error_message]
    rw [if_pos (by simp [optTruthy, isEmpty_false_of_ne _ hmsg])]
  · intro o
    cases o with
    | result r' =>
      unfold process_submission
      by_cases hs : r'.success
      · simp [hs, update_status_attempt_count, record_attempt_attempt_count]
      · simp [hs, update_status_attempt_count, record_attempt_attempt_count]
    | raised m =>
      unfold process_submission
      simp [update_status_attempt_count]

/-- C3 (witness). -/
theorem c3_witness :
    ("zap" : String) ≠ "" ∧
    (process_submission 9 { id := 3, status := .pending }
        (.raised "zap")).error_message = some "zap" :=
  ⟨by decide,
    (c3_attempt_accounting 9 { id := 3, status := .pending }
      { success := true } "zap").2.2.2.1 (by decide)⟩

/-- C10: `update_status` overwrites `error_message`, `listing_url` and
`screenshot_path` only when the corresponding argument is supplied (truthy);
with no argument they are left unchanged, so a job that failed earlier and
later succeeds ends SUBMITTED while still carrying the stale
`error_message` of the earlier failure. -/
theorem c10_update_status_frame (now : Int) (s : Submission)
    (st : PySubmissionStatus) (em lu sp : Option String) :
    (em = none →
      (update_status now s st em lu sp).error_message = s.error_message) ∧
    (lu = none →
      (update_status now s st em lu sp).listing_url = s.listing_url) ∧
    (sp = none →
      (update_status now s st em lu sp).screenshot_path = s.screenshot_path) ∧
    (∀ (e : String) (shot : Option String) (t1 t2 : Int), e ≠ "" →
      (update_status t2 (update_status t1 s .failed (some e) none none)
          .submitted none none shot).status = .submitted ∧
      (update_status t2 (update_status t1 s .failed (some e) none none)
          .submitted none none shot).error_message = some e) := by
  refine ⟨?_, ?_, ?_, ?_⟩
  · intro h
    rw [update_status_error_message, h]
    rfl
  · intro h
    rw [update_status_listing_url, h]
    rfl
  · intro h
    rw [update_status_screenshot_path, h]
    rfl
  · intro e shot t1 t2 he
    constructor
    · exact update_status_status ..
    · rw [update_status_error_message]
      rw [if_neg (by simp [optTruthy])]
      rw [update_status_error_message]
      rw [if_pos (by simp [optTruthy, isEmpty_false_of_ne _ he])]

/-- C10 (witness). -/
theorem c10_witness :
    (update_status 2 (update_status 1 { id := 7, status := .pending }
        .failed (some "boom") none none) .submitted none none
        (some "shot.png")).status = .submitted ∧
    (update_status 2 (update_status 1 { id := 7, status := .pending }
        .failed (some "boom") none none) .submitted none none
        (some "shot.png")).error_message = some "boom" :=
  (c10_update_status_frame 2 { id := 7, status := .pending } .submitted
      none none none).2.2.2 "boom" (some "shot.png") 1 2 (by decide)

theorem nullsFirstLe_trans (a b c : Submission) (h1 : nullsFirstLe a b = true)
    (h2 : nullsFirstLe b c = true) : nullsFirstLe a c = true := by
  unfold nullsFirstLe at *
  cases ha : a.last_attempt_at with
  | none => rfl
  | some x =>
    cases hb : b.last_attempt_at with
    | none => simp [ha, hb] at h1
    | some y =>
      cases hc : c.last_attempt_at with
      | none => simp [hb, hc] at h2
      | some z =>
        simp [ha, hb] at h1
        simp [hb, hc] at h2
        simp [ha, hc]
        omega

theorem nullsFirstLe_total (a b : Submission) :
    (nullsFirstLe a b || nullsFirstLe b a) = true := by
  unfold nullsFirstLe
  cases a.last_attempt_at with
  | none => rfl
  | some x =>
    cases b.last_attempt_at with
    | none => rfl
    | some y =>
      simp
      omega

/-- C2 (counterexample): a FAILED job last attempted 61 minutes ago with
attempts remaining is retry-eligible, yet one polling pass of the worker
(`_process_queue`, which fetches only PENDING jobs) does not pick it up;
and at exactly one hour elapsed (3600 s) the job is not yet eligible, since
the query compares with strict `<`, refuting "at least one hour". -/
theorem c2_counterexample :
    retryElig 10000 jobRetry61 = true ∧
    worker_queue_selection [jobRetry61] 3 0 = [] ∧
    retryElig 10000 jobRetry3600 = false := by
  refine ⟨rfl, ?_, rfl⟩
  show get_pending_submissions _ _ = []
  unfold get_pending_submissions
  rw [show List.filter pendingElig [jobRetry61] = [] from rfl]
  rw [List.mergeSort_nil]
  rfl

/-- C2 (amended): a FAILED job is retry-eligible exactly when its attempt
count is below `max_attempts` and it was never attempted or last attempted
strictly more than one hour ago; the retryable query returns exactly the
eligible jobs (when the limit allows) ordered oldest-attempt-first with
never-attempted jobs first; but the worker polling loop fetches only
PENDING jobs, so a retryable FAILED job (10 minutes ago: not eligible;
61 minutes later: eligible) is reached via the retryable query / retry
API, not the polling loop. -/
theorem c2_retry_eligibility (jobs : List Submission) (now : Int) (limit : Nat) :
    (∀ j ∈ get_retryable_submissions jobs now limit,
      j ∈ jobs ∧ retryElig now j = true) ∧
    (jobs.length ≤ limit → ∀ j,
      (j ∈ get_retryable_submissions jobs now limit ↔
        (j ∈ jobs ∧ retryElig now j = true))) ∧
    (get_retryable_submissions jobs now limit).Pairwise
      (fun a b => nullsFirstLe a b = true) ∧
    (∀ j ∈ get_pending_submissions jobs limit, j.status = .pending) ∧
    (∀ j : Submission, j.status = .failed → j.attempt_count < j.max_attempts →
      (j.last_attempt_at = some (now - 600) → retryElig now j = false) ∧
      (j.last_attempt_at = some (now - 3660) → retryElig now j = true)) := by
  refine ⟨?_, ?_, ?_, ?_, ?_⟩
  · intro j hj
    have h1 : j ∈ (jobs.filter (retryElig now)).mergeSort nullsFirstLe :=
      List.mem_of_mem_take hj
    have h2 : j ∈ jobs.filter (retryElig now) :=
      (List.mergeSort_perm (jobs.filter (retryElig now)) nullsFirstLe).mem_iff.mp h1
    exact ⟨(List.mem_filter.mp h2).1, (List.mem_filter.mp h2).2⟩
  · intro hlen j
    have hflen : (jobs.filter (retryElig now)).length ≤ limit :=
      le_trans (List.length_filter_le _ _) hlen
    have hslen : ((jobs.filter (retryElig now)).mergeSort nullsFirstLe).length
        ≤ limit := by
      rw [(List.mergeSort_perm (jobs.filter (retryElig now))
        nullsFirstLe).length_eq]
      exact hflen
    unfold get_retryable_submissions
    rw [List.take_of_length_le hslen]
    rw [(List.mergeSort_perm (jobs.filter (retryElig now))
      nullsFirstLe).mem_iff]
    exact List.mem_filter
  · have hsorted := @List.sorted_mergeSort Submission nullsFirstLe
      (fun a b c => nullsFirstLe_trans a b c)
      (fun a b => nullsFirstLe_total a b)
      (jobs.filter (retryElig now))
    exact List.Pairwise.sublist (List.take_sublist limit _) hsorted
  · intro j hj
    have h1 : j ∈ (jobs.filter pendingElig).mergeSort leCreated :=
      List.mem_of_mem_take hj
    have h2 : j ∈ jobs.filter pendingElig :=
      (List.mergeSort_perm (jobs.filter pendingElig) leCreated).mem_iff.mp h1
    have h3 := (List.mem_filter.mp h2).2
    unfold pendingElig at h3
    simp only [Bool.and_eq_true, decide_eq_true_eq] at h3
    exact h3.1
  · intro j hst hcnt
    constructor
    · intro hlast
      unfold retryElig
      rw [hlast]
      simp [hst, hcnt]
    · intro hlast
      unfold retryElig
      rw [hlast]
      simp [hst, hcnt]

/-- C2 (witness). -/
theorem c2_witness :
    retryElig 10000 jobRetry61 = true ∧ retryElig 10000 jobRetry600 = false := by
  constructor
  · have h := ((c2_retry_eligibility [] 10000 5).2.2.2.2 jobRetry61
      rfl (by decide)).2
    exact h (by rfl)
  · have h := ((c2_retry_eligibility [] 10000 5).2.2.2.2 jobRetry600
      rfl (by decide)).1
    exact h (by rfl)

theorem build_detection_result_failure (url : String) :
    build_detection_result url parseFailureJson = .ok (failure_result url) := rfl

/-- C4: `detect_form` is a total function of the provider outcome — every
raise inside the body (transport error, non-200 status, malformed API
envelope) and every `json.loads` failure inside `_parse_response` degrades
to the zero-confidence result: `form_found = false`, `confidence = 0.0`,
no fields. -/
theorem c4_detect_form_never_raises (url : String) (o : ProviderOutcome)
    (h : o = .transportError ∨
      (∃ st c, o = .httpResponse st c ∧ st ≠ 200) ∨
      o = .httpResponse 200 none ∨
      (∃ c, o = .httpResponse 200 (some c) ∧
        json_loads (pyStrip (extractJsonStr c)) = none)) :
    (detect_form url o).form_found = false ∧
    (detect_form url o).confidence = 0 ∧
    (detect_form url o).fields = [] := by
  rcases h with rfl | ⟨st, c, rfl, hst⟩ | rfl | ⟨c, rfl, hparse⟩
  · exact ⟨rfl, rfl, rfl⟩
  · have ha : analyze_form (.httpResponse st c) = .error "OpenAI API error" := by
      unfold analyze_form
      simp [hst]
    unfold detect_form
    rw [ha]
    exact ⟨rfl, rfl, rfl⟩
  · exact ⟨rfl, rfl, rfl⟩
  · have hpr : parse_response c = parseFailureJson := by
      unfold parse_response
      rw [hparse]
      rfl
    have hred : detect_form url (.httpResponse 200 (some c)) =
        (match build_detection_result url (parse_response c) with
         | .ok r => r
         | .error _ => failure_result url) := rfl
    rw [hred, hpr, build_detection_result_failure]
    exact ⟨rfl, rfl, rfl⟩

/-- C4 (witness). -/
theorem c4_witness :
    (detect_form "http://d.example/submit"
      (.httpResponse 200 (some "not json".data))).form_found = false ∧
    (detect_form "http://d.example/submit"
      (.httpResponse 200 (some "not json".data))).confidence = 0 ∧
    (detect_form "http://d.example/submit"
      (.httpResponse 200 (some "not json".data))).fields = [] :=
  c4_detect_form_never_raises "http://d.example/submit"
    (.httpResponse 200 (some "not json".data))
    (Or.inr (Or.inr (Or.inr ⟨"not json".data, rfl, rfl⟩)))

/-- C5 (counterexample): the JSON body `"x```json1```y"` (a valid JSON
string) parses to that string when given unfenced — the extraction takes
the text between its internal "```json" and "```" markers, yielding `1` —
but wrapped in a fenced block the extraction cuts at the body's internal
markers and `json.loads` fails, so the two parses differ, refuting the
claim for arbitrary JSON bodies. -/
theorem c5_counterexample :
    json_loads "\"x```json1```y\"".data =
      some (Json.str "x```json1```y".data) ∧
    parse_response (fencedResp "\"x```json1```y\"".data) ≠
      parse_response "\"x```json1```y\"".data := by
  refine ⟨rfl, ?_⟩
  intro h
  have h1 : (parse_response "\"x```json1```y\"".data).isNumber = true := rfl
  have h2 : (parse_response
      (fencedResp "\"x```json1```y\"".data)).isNumber = false := rfl
  rw [h, h1] at h2
  exact Bool.noConfusion h2

/-- C5 (amended): for every body `j` that does not contain the fence
marker "```" (in particular every such JSON body), the provider response
`"```json\n" ++ j ++ "\n```"` and the bare response `j` parse to the same
result: the extraction strips the fence, the strip removes only the
surrounding newlines, and the same stripped text reaches `json.loads`. -/
theorem c5_fenced_equivalence (j : List Char)
    (hj : containsSub btMark j = false) :
    parse_response (fencedResp j) = parse_response j := by
  unfold parse_response
  rw [extractJsonStr_fenced j hj, extractJsonStr_plain j hj, pyStrip_fence_body]

/-- C5 (witness). -/
theorem c5_witness :
    containsSub btMark "\"ok\"".data = false ∧
    parse_response (fencedResp "\"ok\"".data) = parse_response "\"ok\"".data :=
  ⟨rfl, c5_fenced_equivalence "\"ok\"".data rfl⟩

theorem filterMap_if_filter {α β : Type} (p : α → Bool) (g : α → β)
    (l : List α) :
    l.filterMap (fun e => if p e then some (g e) else none) =
      (l.filter p).map g := by
  induction l with
  | nil => rfl
  | cons a l ih =>
    rw [List.filterMap_cons, List.filter_cons]
    by_cases hp : p a
    · simp [hp, ih]
    · simp [hp, ih]

/-- C6 (counterexample): an `input` element whose `id` attribute is present
but empty (and with no `name`) has an id attribute yet cannot be targeted —
`element.get("id")` is falsy — so the detector skips it and returns 0
fields where the claim (N = 1 elements with an id or name attribute)
requires 1. -/
theorem c6_counterexample :
    (({ elements := [{ tag := "input", idAttr := some "" }] } :
        HtmlDoc).elements.countP
      (fun e => e.idAttr.isSome || e.nameAttr.isSome)) = 1 ∧
    detect_fields_from_html
      { elements := [{ tag := "input", idAttr := some "" }] } = [] :=
  ⟨rfl, rfl⟩

/-- C6 (amended): over the `input`/`textarea`/`select` elements, exactly
those with a non-empty id or non-empty name yield a field, in document
order; every produced selector is non-empty, derived from the id
(`#id`) when the id is non-empty, else from the name
(`[name=\x27name\x27]`); in particular a document whose N relevant
elements all carry a non-empty id or name yields exactly N fields. -/
theorem c6_rule_detector (doc : HtmlDoc) :
    detect_fields_from_html doc =
      ((doc.elements.filter (fun e => formTags.contains e.tag)).filter
        targetable).map (ruleFieldOf doc) ∧
    (∀ f ∈ detect_fields_from_html doc, ¬ f.selector = "") ∧
    ((∀ e ∈ doc.elements, formTags.contains e.tag → targetable e = true) →
      (detect_fields_from_html doc).length =
        (doc.elements.filter (fun e => formTags.contains e.tag)).length) ∧
    (∀ e : HtmlEl, optTruthy e.idAttr = true →
      (ruleFieldOf doc e).selector = "#" ++ e.idAttr.getD "") ∧
    (∀ e : HtmlEl, optTruthy e.idAttr = false →
      (ruleFieldOf doc e).selector =
        "[name=\x27" ++ e.nameAttr.getD "" ++ "\x27]") := by
  have hchar : detect_fields_from_html doc =
      ((doc.elements.filter (fun e => formTags.contains e.tag)).filter
        targetable).map (ruleFieldOf doc) := by
    unfold detect_fields_from_html
    exact filterMap_if_filter targetable (ruleFieldOf doc) _
  refine ⟨hchar, ?_, ?_, ?_, ?_⟩
  · intro f hf
    rw [hchar] at hf
    obtain ⟨e, he, rfl⟩ := List.mem_map.mp hf
    intro hsel
    by_cases hid : optTruthy e.idAttr
    · rw [show (ruleFieldOf doc e).selector = "#" ++ e.idAttr.getD "" from by
        simp [ruleFieldOf, hid]] at hsel
      have hl := congrArg String.length hsel
      rw [String.length_append] at hl
      have h1 : ("#" : String).length = 1 := rfl
      have h0 : ("" : String).length = 0 := rfl
      omega
    · rw [show (ruleFieldOf doc e).selector =
          "[name=\x27" ++ e.nameAttr.getD "" ++ "\x27]" from by
        simp [ruleFieldOf, hid]] at hsel
      have hl := congrArg String.length hsel
      rw [String.length_append, String.length_append] at hl
      have h1 : ("[name=\x27" : String).length = 7 := rfl
      have h2 : ("\x27]" : String).length = 2 := rfl
      have h0 : ("" : String).length = 0 := rfl
      omega
  · intro hall
    rw [hchar, List.length_map]
    have : (doc.elements.filter (fun e => formTags.contains e.tag)).filter
        targetable = doc.elements.filter (fun e => formTags.contains e.tag) := by
      rw [List.filter_eq_self]
      intro e he
      have hmem := (List.mem_filter.mp he).1
      have htag := (List.mem_filter.mp he).2
      exact hall e hmem htag
    rw [this]
  · intro e hid
    simp [ruleFieldOf, hid]
  · intro e hid
    simp [ruleFieldOf, hid]

/-- C6 (witness). -/
theorem c6_witness :
    (detect_fields_from_html { elements :=
      [{ tag := "input", idAttr := some "email" },
       { tag := "textarea", nameAttr := some "bio" }] }).length = 2 ∧
    (∀ f ∈ detect_fields_from_html { elements :=
      [{ tag := "input", idAttr := some "email" },
       { tag := "textarea", nameAttr := some "bio" }] }, ¬ f.selector = "") := by
  constructor
  · exact (c6_rule_detector { elements :=
      [{ tag := "input", idAttr := some "email" },
       { tag := "textarea", nameAttr := some "bio" }] }).2.2.1 (by decide)
  · exact (c6_rule_detector { elements :=
      [{ tag := "input", idAttr := some "email" },
       { tag := "textarea", nameAttr := some "bio" }] }).2.1

theorem pyDictGet_insert_self {α β : Type} [BEq α] [LawfulBEq α]
    (m : List (α × β)) (k : α) (v : β) :
    pyDictGet (pyDictInsert m k v) k = some v := by
  induction m with
  | nil => simp [pyDictInsert, pyDictGet]
  | cons kv rest ih =>
    obtain ⟨k1, v1⟩ := kv
    by_cases hk : (k1 == k) = true
    · unfold pyDictInsert
      rw [if_pos hk]
      unfold pyDictGet
      rw [List.find?_cons_of_pos _ (by show (k == k) = true; simp)]
      rfl
    · unfold pyDictInsert
      rw [if_neg hk]
      unfold pyDictGet
      rw [List.find?_cons_of_neg _ (by show ¬ (k1 == k) = true; exact hk)]
      exact ih

theorem pyDictGet_insert_ne {α β : Type} [BEq α] [LawfulBEq α]
    (m : List (α × β)) (k k' : α) (v : β) (h : ¬ k' = k) :
    pyDictGet (pyDictInsert m k v) k' = pyDictGet m k' := by
  have hkk' : ¬ (k == k') = true := by
    simp only [beq_iff_eq]
    exact fun e => h e.symm
  induction m with
  | nil =>
    unfold pyDictInsert pyDictGet
    rw [List.find?_cons_of_neg _ (by show ¬ (k == k') = true; exact hkk')]
  | cons kv rest ih =>
    obtain ⟨k1, v1⟩ := kv
    by_cases hk : (k1 == k) = true
    · unfold pyDictInsert
      rw [if_pos hk]
      unfold pyDictGet
      rw [List.find?_cons_of_neg _ (by show ¬ (k == k') = true; exact hkk')]
      rw [List.find?_cons_of_neg _ (by
        show ¬ (k1 == k') = true
        simp only [beq_iff_eq]
        rw [eq_of_beq hk]
        exact fun e => h e.symm)]
    · unfold pyDictInsert
      rw [if_neg hk]
      unfold pyDictGet
      by_cases hk1 : (k1 == k') = true
      · rw [List.find?_cons_of_pos _ (by show (k1 == k') = true; exact hk1),
          List.find?_cons_of_pos _ (by show (k1 == k') = true; exact hk1)]
      · rw [List.find?_cons_of_neg _ (by show ¬ (k1 == k') = true; exact hk1),
          List.find?_cons_of_neg _ (by show ¬ (k1 == k') = true; exact hk1)]
        exact ih

theorem mapStep_foldl_preserve (d : List (String × String))
    (rest : List FormField) (acc : List (String × MappedValue)) (sel : String)
    (h : ∀ g ∈ rest, ¬ g.selector = sel) :
    pyDictGet (rest.foldl (mapStep d) acc) sel = pyDictGet acc sel := by
  induction rest generalizing acc with
  | nil => rfl
  | cons g rest ih =>
    rw [List.foldl_cons]
    rw [ih _ (fun g' hg' => h g' (List.mem_cons_of_mem g hg'))]
    unfold mapStep
    cases matchField g d with
    | none => rfl
    | some v =>
      exact pyDictGet_insert_ne acc g.selector sel (mappedEntry g v)
        (fun e => h g (List.mem_cons_self g rest) e.symm)

theorem mapStep_foldl_lookup (d : List (String × String))
    (fields : List FormField) (f : FormField)
    (hp : fields.Pairwise (fun a b => ¬ a.selector = b.selector)) :
    ∀ (acc : List (String × MappedValue)), f ∈ fields →
      pyDictGet acc f.selector = none →
      pyDictGet (fields.foldl (mapStep d) acc) f.selector =
        (matchField f d).map (mappedEntry f) := by
  induction fields with
  | nil =>
    intro acc hf _
    exact absurd hf (List.not_mem_nil f)
  | cons g rest ih =>
    intro acc hf hacc
    have hg := (List.pairwise_cons.mp hp).1
    have hp' := (List.pairwise_cons.mp hp).2
    rw [List.foldl_cons]
    rcases List.mem_cons.mp hf with rfl | hfr
    · rw [mapStep_foldl_preserve d rest _ f.selector
        (fun g' hg' e => hg g' hg' e.symm)]
      unfold mapStep
      cases hm : matchField f d with
      | none => rw [hacc]; rfl
      | some v => rw [pyDictGet_insert_self]; rfl
    · refine ih hp' _ hfr ?_
      unfold mapStep
      cases hm : matchField g d with
      | none => exact hacc
      | some v =>
        rw [pyDictGet_insert_ne acc g.selector f.selector (mappedEntry g v)
          (fun e => hg f hfr e.symm)]
        exact hacc

/-- C7 (counterexample): for the field named "name_url" with product data
{website_url: "https://x.io"}, the first key-matching synonym group is
"name", which yields no value, so the choice the claim prescribes is
empty and the field would be omitted; the code instead falls through to
the "url" group and maps the field to "https://x.io" — the first
key-matching group alone does not govern the mapper. -/
theorem c7_counterexample :
    specMatchField fieldNameUrl dataWebsiteOnly = none ∧
    matchField fieldNameUrl dataWebsiteOnly = some "https://x.io" ∧
    spec_map_saas_data_to_fields [fieldNameUrl] dataWebsiteOnly = [] ∧
    map_saas_data_to_fields [fieldNameUrl] dataWebsiteOnly =
      [("#u", { field_name := "name_url", field_type := "text",
                value := "https://x.io" })] :=
  ⟨rfl, rfl, rfl, rfl⟩

/-- C7 (amended): when the detected fields carry pairwise distinct
selectors, the mapper assigns each field the value chosen by the first
synonym group that key-matches its normalized name or label AND contains a
product attribute with a non-empty value (first such attribute wins), and
omits the field when no group yields a value. -/
theorem c7_mapper_lookup (fields : List FormField)
    (d : List (String × String))
    (hp : fields.Pairwise (fun a b => ¬ a.selector = b.selector)) :
    ∀ f ∈ fields,
      pyDictGet (map_saas_data_to_fields fields d) f.selector =
        (matchField f d).map (mappedEntry f) := by
  intro f hf
  unfold map_saas_data_to_fields
  exact mapStep_foldl_lookup d fields f hp [] hf rfl

/-- C7 (witness): the claim example — a field named "website_url" with
product data {website_url: "https://x.io"} maps to "https://x.io". -/
theorem c7_witness :
    pyDictGet (map_saas_data_to_fields [fieldWebsiteUrl] dataWebsiteOnly)
        "#website_url" =
      some { field_name := "website_url", field_type := "url",
             value := "https://x.io" } := by
  have h := c7_mapper_lookup [fieldWebsiteUrl] dataWebsiteOnly
    (List.pairwise_singleton _ _) fieldWebsiteUrl (List.mem_singleton.mpr rfl)
  rw [show fieldWebsiteUrl.selector = "#website_url" from rfl] at h
  rw [h]
  rfl

/-- C8: when the primary detection yields no form or an empty field list,
the rule-based detector runs on the HTML; a non-empty field list yields a
synthesized result with `form_found = true`, `confidence = 0.5` and
exactly those fields, otherwise the primary result is returned
unchanged. -/
theorem c8_rule_based_fallback (url : String) (primary : FormDetectionResult)
    (doc : HtmlDoc)
    (h : primary.form_found = false ∨ primary.fields = []) :
    (detect_fields_from_html doc = [] →
      browser_detect_form url primary doc = primary) ∧
    (¬ detect_fields_from_html doc = [] →
      (browser_detect_form url primary doc).form_found = true ∧
      (browser_detect_form url primary doc).confidence = mkRat 1 2 ∧
      (browser_detect_form url primary doc).fields =
        detect_fields_from_html doc ∧
      (browser_detect_form url primary doc).url = url) := by
  have hcond : (!primary.form_found || primary.fields.length == 0) = true := by
    rcases h with h | h
    · rw [h]
      rfl
    · rw [h]
      simp
  constructor
  · intro hempty
    unfold browser_detect_form
    rw [if_pos hcond]
    rw [if_pos (by rw [hempty]; rfl)]
  · intro hne
    unfold browser_detect_form
    rw [if_pos hcond]
    rw [if_neg (by simp [hne])]
    exact ⟨rfl, rfl, rfl, rfl⟩

/-- C8 (witness). -/
theorem c8_witness :
    (browser_detect_form "http://d.example"
      { url := "http://d.example", form_found := false }
      { elements := [{ tag := "input", idAttr := some "email" }] }).form_found
        = true ∧
    (browser_detect_form "http://d.example"
      { url := "http://d.example", form_found := false }
      { elements := [{ tag := "input", idAttr := some "email" }] }).confidence
        = mkRat 1 2 := by
  have h := (c8_rule_based_fallback "http://d.example"
    { url := "http://d.example", form_found := false }
    { elements := [{ tag := "input", idAttr := some "email" }] }
    (Or.inl rfl)).2 (by decide)
  exact ⟨h.1, h.2.1⟩

/-- C9: the success-phrase list is checked before the error-phrase list
against the lower-cased page body; the first list with an occurring phrase
determines the outcome (a success phrase wins even when error phrases also
occur); when neither list matches, the run is a soft success with the
could-not-confirm note — never a hard failure from ambiguity alone. -/
theorem c9_outcome_policy (html : List Char) :
    ((∃ p ∈ success_phrases, containsSub p.data (pyLower html) = true) →
      (executor_verdict html).success = true) ∧
    ((∀ p ∈ success_phrases, containsSub p.data (pyLower html) = false) →
      (∃ p ∈ error_phrases, containsSub p.data (pyLower html) = true) →
      (executor_verdict html).success = false ∧
      (executor_verdict html).error.isSome = true) ∧
    ((∀ p ∈ success_phrases, containsSub p.data (pyLower html) = false) →
      (∀ p ∈ error_phrases, containsSub p.data (pyLower html) = false) →
      executor_verdict html =
        { success := true, error := none,
          note := some "Could not confirm, assuming success" }) := by
  refine ⟨?_, ?_, ?_⟩
  · intro hex
    unfold executor_verdict check_submission_success
    cases hfind : success_phrases.find? (fun p => containsSub p.data (pyLower html)) with
    | some q => simp [hfind]
    | none =>
      obtain ⟨p, hp, hocc⟩ := hex
      have := List.find?_eq_none.mp hfind p hp
      simp [hocc] at this
  · intro hall hex
    unfold executor_verdict check_submission_success
    have hnone : success_phrases.find?
        (fun p => containsSub p.data (pyLower html)) = none :=
      List.find?_eq_none.mpr (fun p hp => by simp [hall p hp])
    cases hfind : error_phrases.find? (fun p => containsSub p.data (pyLower html)) with
    | some q => simp [hnone, hfind]
    | none =>
      obtain ⟨p, hp, hocc⟩ := hex
      have := List.find?_eq_none.mp hfind p hp
      simp [hocc] at this
  · intro hs he
    unfold executor_verdict check_submission_success
    have hnone1 : success_phrases.find?
        (fun p => containsSub p.data (pyLower html)) = none :=
      List.find?_eq_none.mpr (fun p hp => by simp [hs p hp])
    have hnone2 : error_phrases.find?
        (fun p => containsSub p.data (pyLower html)) = none :=
      List.find?_eq_none.mpr (fun p hp => by simp [he p hp])
    simp [hnone1, hnone2]

/-- C9 (witness): a page with both a success and an error phrase counts as
success; a page with only an error phrase fails; a page with neither is a
soft success with the note. -/
theorem c9_witness :
    (executor_verdict "Thank you! no error here".data).success = true ∧
    (executor_verdict "page error".data).success = false ∧
    executor_verdict "all quiet on this page".data =
      { success := true, error := none,
        note := some "Could not confirm, assuming success" } := by
  refine ⟨?_, ?_, ?_⟩
  · exact (c9_outcome_policy "Thank you! no error here".data).1
      ⟨"thank you", by decide, by decide⟩
  · exact ((c9_outcome_policy "page error".data).2.1 (by decide)
      ⟨"error", by decide, by decide⟩).1
  · exact (c9_outcome_policy "all quiet on this page".data).2.2
      (by decide) (by decide)
